import Mathlib

/-!
# Verification of `scripts/generate-og-images.ts`

A shallow embedding of the build-time OG-image generation pipeline
(`generate-og-images.ts`) of the `nextjs-static-og-generator` repository,
together with proofs about its documented behaviour.

Modelling conventions:
* bytes are `Nat` (values < 256 in practice; no arithmetic is performed on
  them, so no truncation is needed);
* the filesystem is a function `String → Option (List Nat)` (`none` means
  `existsSync` is false);
* the HTTPS layer is modelled as the finite trace of events the `https.get`
  callbacks observe (`NetEvent`); `downloadFile` consumes that trace;
* the external Satori + Resvg rasterizer (and the output-file write) is an
  oracle `VNode → List FontEntry → Option (List Nat)`: `some png` means the
  whole `generateOGImage` body succeeded and wrote `png`, `none` means it
  threw at some stage;
* `PROJECT_ROOT` is derived from `__dirname` at runtime; it is modelled by a
  fixed abstract string, and no theorem depends on its value;
* `path.join` is modelled as concatenation with `/`; resolved paths are the
  strings this produces, which is what the script uses as cache keys.
-/

namespace OGGen

/-- `join(a, b)` of the `path` module, as used by the script: it only glues a
directory prefix onto a relative segment. -/
def joinPath (a b : String) : String := a ++ "/" ++ b

/-- Stand-in for `join(__dirname, '..')`; the scripts directory's parent. -/
def PROJECT_ROOT : String := "/repo"

def OG_WIDTH : Nat := 1200
def OG_HEIGHT : Nat := 630

def OUTPUT_DIR : String := joinPath (joinPath PROJECT_ROOT "public") "og"
def FONTS_DIR : String := joinPath (joinPath PROJECT_ROOT "assets") "fonts"

def DEFAULT_BG_PATH : String :=
  joinPath (joinPath (joinPath PROJECT_ROOT "assets") "bg") "og-background.jpg"

def DEFAULT_BG_URL : String :=
  "https://assets.jozapf.de/jpg/og_image_v2_1200x630_jozapf_de.jpg"

/-! ## Base64 encoding (Buffer.prototype.toString with encoding base64) -/

def base64Alphabet : String :=
  "ABCDEFGHIJKLMNOPQRSTUVWXYZabcdefghijklmnopqrstuvwxyz0123456789+/"

def base64Digit (n : Nat) : Char := base64Alphabet.toList.getD n 'A'

/-- RFC 4648 base64 of a byte sequence, as produced by
`Buffer.prototype.toString('base64')`. -/
def base64Encode : List Nat → String
  | [] => ""
  | [a] =>
      String.mk [base64Digit (a / 4), base64Digit (a % 4 * 16)] ++ "=="
  | [a, b] =>
      String.mk [base64Digit (a / 4), base64Digit (a % 4 * 16 + b / 16),
        base64Digit (b % 16 * 4)] ++ "="
  | a :: b :: c :: rest =>
      String.mk [base64Digit (a / 4), base64Digit (a % 4 * 16 + b / 16),
        base64Digit (b % 16 * 4 + c / 64), base64Digit (c % 64)]
        ++ base64Encode rest

/-! ## `downloadFile` (lines 113–138)

The HTTPS layer is modelled by the trace of events the nested `request`
closure observes across all hops: each `https.get` call either fails at the
transport level (`connError`, the `.on('error', reject)` on the request) or
delivers a response with a status code, an optional `Location` header, the
body chunks, and a flag telling whether the stream reached its `end` event
(`streamEnd = false` models `response.on('error', reject)` firing instead).
An empty remaining trace models a request that never receives a response:
the promise never settles, which the embedding renders as `none`. -/

inductive NetEvent where
  | connError : NetEvent
  | resp (statusCode : Nat) (location : Option String)
      (chunks : List (List Nat)) (streamEnd : Bool) : NetEvent
deriving DecidableEq, Repr

inductive DLResult where
  | ok (bytes : List Nat) : DLResult
  | httpError (status : Nat) : DLResult
  | transportError : DLResult
deriving DecidableEq, Repr

/-- One run of the recursive `request` closure of `downloadFile`, returning
the list of URLs a GET was issued against, and the settled promise value
(`none` = the promise never settles). Mirrors lines 115–135. -/
def downloadGo (url : String) : List NetEvent → List String × Option DLResult
  | [] => ([url], none)
  | NetEvent.connError :: _ => ([url], some DLResult.transportError)
  | NetEvent.resp st loc chunks streamEnd :: rest =>
    if st = 301 ∨ st = 302 then
      match loc with
      | some redirectUrl =>
          let p := downloadGo redirectUrl rest
          (url :: p.1, p.2)
      | none =>
          -- falls through to the `statusCode !== 200` check
          if st ≠ 200 then ([url], some (DLResult.httpError st))
          else ([url], some (if streamEnd then DLResult.ok chunks.flatten
            else DLResult.transportError))
    else
      if st ≠ 200 then ([url], some (DLResult.httpError st))
      else ([url], some (if streamEnd then DLResult.ok chunks.flatten
        else DLResult.transportError))

/-- `downloadFile(url)`: the settled value of the promise. -/
def downloadFile (url : String) (trace : List NetEvent) : Option DLResult :=
  (downloadGo url trace).2

/-- The URLs `downloadFile(url)` issues GET requests against, in order. -/
def requestedUrls (url : String) (trace : List NetEvent) : List String :=
  (downloadGo url trace).1

/-! ## `loadImageAsBase64` (lines 140–152) -/

/-- The `mimeTypes` record literal of line 144. -/
def mimeTypesLookup (ext : String) : Option String :=
  if ext = "jpg" then some "image/jpeg"
  else if ext = "jpeg" then some "image/jpeg"
  else if ext = "png" then some "image/png"
  else if ext = "webp" then some "image/webp"
  else none

/-- JS `String.prototype.split` with a one-character separator, on the
character list of a string. -/
def splitOnChar (c : Char) : List Char → List (List Char)
  | [] => [[]]
  | x :: xs =>
    let r := splitOnChar c xs
    if x = c then [] :: r
    else match r with
      | [] => [[x]]
      | h :: t => (x :: h) :: t

/-- JS `String.prototype.toLowerCase` (ASCII is all the script feeds it). -/
def toLowerStr (s : String) : String := String.mk (s.toList.map Char.toLower)

/-- `imagePath.toLowerCase().split('.').pop()`: JS `split` on a non-empty
separator never yields an empty array, so `pop` is the last element. -/
def lastDotSegment (path : String) : String :=
  String.mk ((splitOnChar '.' (toLowerStr path).toList).getLastD [])

/-- `loadImageAsBase64(imagePath)`; the file's bytes (from `readFileSync`)
are an explicit argument. `ext || 'jpg'` treats the empty string as falsy,
and the index into `mimeTypes` falls back to `'image/jpeg'`. -/
def loadImageAsBase64 (imagePath : String) (imageBuffer : List Nat) : String :=
  let base64 := base64Encode imageBuffer
  let ext := lastDotSegment imagePath
  let extKey := if ext = "" then "jpg" else ext
  let mimeType := (mimeTypesLookup extKey).getD "image/jpeg"
  "data:" ++ mimeType ++ ";base64," ++ base64

/-! ## Page configuration (lines 46–107) -/

/-- The `accentColors` override record. `end` is a Lean keyword, hence the
quoted field name. -/
structure AccentColors where
  start : String
  middle : String
  «end» : String
deriving DecidableEq, Repr

structure PageConfig where
  slug : String
  title : String
  subtitle : String
  description : String
  badge : String
  bgImage : Option String := none
  accentColors : Option AccentColors := none
deriving DecidableEq, Repr

/-- The static `PAGES` array (lines 62–107). -/
def PAGES : List PageConfig :=
  [ { slug := "home",
      title := "Dynamic OG Generator",
      subtitle := "Build-Time Social Media Images",
      description := "Generate beautiful Open Graph images at build time for Next.js static export projects. No server required.",
      badge := "github.com" },
    { slug := "docs",
      title := "Documentation",
      subtitle := "Setup & Configuration Guide",
      description := "Learn how to integrate the Dynamic OG Generator into your Next.js project with step-by-step instructions.",
      badge := "docs",
      accentColors := some ⟨"#3b82f6", "#8b5cf6", "#ec4899"⟩ },
    { slug := "blog-getting-started",
      title := "Getting Started",
      subtitle := "Your First OG Image in 5 Minutes",
      description := "A quick tutorial on creating professional social media preview images for your static website.",
      badge := "blog",
      accentColors := some ⟨"#10b981", "#14b8a6", "#06b6d4"⟩ } ]

/-! ## The visual tree and `createOGTemplate` (lines 179–398)

A node is `type` + a style map + children; text children of the JSX-like
object literals become `text` leaves. Numeric style values are embedded as
their literal decimal text (the claims under study never compute with
them). -/

inductive VNode where
  | elem (type : String) (style : List (String × String))
      (children : List VNode) : VNode
  | text (s : String) : VNode

/-- The default accent triple of lines 182–185. -/
def defaultAccentColors : AccentColors :=
  ⟨"#e26b34", "#336851", "#1b3c65"⟩

/-- The divider's `background` template literal (line 368). -/
def dividerGradient (c : AccentColors) : String :=
  "linear-gradient(90deg, " ++ c.start ++ " 0%, " ++ c.middle ++ " 50%, "
    ++ c.«end» ++ " 100%)"

/-- `createOGTemplate(page, bgImageDataUrl)` (lines 179–398), layer by
layer. -/
def createOGTemplate (page : PageConfig) (bgImageDataUrl : String) : VNode :=
  let colors := page.accentColors.getD defaultAccentColors
  VNode.elem "div"
    [("width", "100%"), ("height", "100%"), ("display", "flex"),
     ("alignItems", "center"), ("justifyContent", "center"),
     ("position", "relative"), ("fontFamily", "Montserrat"),
     ("overflow", "hidden")]
    [ -- LAYER 1: background image
      VNode.elem "img"
        [("src", bgImageDataUrl), ("position", "absolute"), ("top", "0"),
         ("left", "0"), ("width", "100%"), ("height", "100%"),
         ("objectFit", "cover")]
        [],
      -- LAYER 2: dark overlay
      VNode.elem "div"
        [("position", "absolute"), ("top", "0"), ("left", "0"),
         ("right", "0"), ("bottom", "0"),
         ("background", "linear-gradient(135deg, rgba(26,26,46,0.88) 0%, rgba(22,33,62,0.85) 50%, rgba(15,52,96,0.82) 100%)")]
        [],
      -- LAYER 3: glassmorphism card
      VNode.elem "div"
        [("width", "1100"), ("height", "550"), ("borderRadius", "32"),
         ("padding", "48px 56px"), ("display", "flex"),
         ("flexDirection", "column"), ("alignItems", "center"),
         ("justifyContent", "center"), ("position", "relative"),
         ("background", "linear-gradient(145deg, rgba(255,255,255,0.12) 0%, rgba(255,255,255,0.05) 100%)"),
         ("border", "1px solid rgba(255,255,255,0.18)"),
         ("boxShadow", "0 25px 50px -12px rgba(0,0,0,0.5)")]
        [ -- LAYER 4: glossy overlay
          VNode.elem "div"
            [("position", "absolute"), ("top", "0"), ("left", "0"),
             ("right", "0"), ("height", "50%"),
             ("borderRadius", "32px 32px 0 0"),
             ("background", "linear-gradient(180deg, rgba(255,255,255,0.15) 0%, rgba(255,255,255,0.02) 60%, transparent 100%)")]
            [],
          -- BADGE
          VNode.elem "div"
            [("position", "absolute"), ("top", "28"), ("display", "flex"),
             ("padding", "10px 28px"), ("borderRadius", "50"),
             ("background", "rgba(255,255,255,0.15)"),
             ("border", "1px solid rgba(255,255,255,0.25)"),
             ("fontSize", "20"), ("fontWeight", "500"),
             ("color", "rgba(255,255,255,0.9)"), ("letterSpacing", "0.5px")]
            [VNode.text page.badge],
          -- TITLE
          VNode.elem "div"
            [("marginTop", "32"), ("fontSize", "64"), ("fontWeight", "700"),
             ("color", "#ffffff"), ("textAlign", "center"),
             ("lineHeight", "1.1"), ("letterSpacing", "-1px")]
            [VNode.text page.title],
          -- SUBTITLE
          VNode.elem "div"
            [("marginTop", "8"), ("fontSize", "32"), ("fontWeight", "500"),
             ("color", "rgba(255,255,255,0.85)"), ("textAlign", "center"),
             ("lineHeight", "1.3")]
            [VNode.text page.subtitle],
          -- DIVIDER
          VNode.elem "div"
            [("marginTop", "32"), ("width", "120"), ("height", "3"),
             ("borderRadius", "2"),
             ("background", dividerGradient colors)]
            [],
          -- DESCRIPTION
          VNode.elem "div"
            [("marginTop", "28"), ("maxWidth", "900"), ("fontSize", "24"),
             ("fontWeight", "400"), ("color", "rgba(255,255,255,0.7)"),
             ("textAlign", "center"), ("lineHeight", "1.5")]
            [VNode.text page.description]
        ]
    ]

/-- Navigate to the divider node's `background` style value: the divider is
child 4 of the card, which is child 2 of the root. -/
def dividerBackground (t : VNode) : Option String :=
  match t with
  | VNode.text _ => none
  | VNode.elem _ _ rootChildren =>
    match rootChildren.get? 2 with
    | some (VNode.elem _ _ cardChildren) =>
      match cardChildren.get? 4 with
      | some (VNode.elem _ style _) => (style.lookup "background")
      | _ => none
    | _ => none

/-- The title text of a built tree (child 2 of the card): used to key
per-page render oracles in concrete scenarios. -/
def treeTitle (t : VNode) : Option String :=
  match t with
  | VNode.text _ => none
  | VNode.elem _ _ rootChildren =>
    match rootChildren.get? 2 with
    | some (VNode.elem _ _ cardChildren) =>
      match cardChildren.get? 2 with
      | some (VNode.elem _ _ [VNode.text s]) => some s
      | _ => none
    | _ => none

/-! ## `main` (lines 433–545)

The world the script runs against: local files, the network trace for the
(sole) default-background download, and the opaque Satori + Resvg + file
write outcome per built tree. -/

structure FontEntry where
  name : String
  data : List Nat
  weight : Nat
  style : String
deriving DecidableEq, Repr

structure Env where
  /-- `existsSync` / `readFileSync`: `none` = the path does not exist. -/
  fs : String → Option (List Nat)
  /-- The HTTPS event trace consumed by `downloadFile(DEFAULT_BG_URL)`. -/
  net : List NetEvent
  /-- Outcome of `generateOGImage`'s satori → resvg → write chain for a
  built tree and font set: `some png` = file written with these bytes,
  `none` = an exception was thrown inside the per-page `try`. -/
  render : VNode → List FontEntry → Option (List Nat)

/-- The transparent-pixel placeholder data URI of line 475. -/
def PLACEHOLDER_DATA_URI : String :=
  "data:image/png;base64,iVBORw0KGgoAAAANSUhEUgAAAAEAAAABCAYAAAAfFcSJAAAADUlEQVR42mNk+M9QDwADhgGAWjR9awAAAABJRU5ErkJggg=="

/-- `Map.prototype.set`: replace an existing binding, else append. -/
def mapSet (m : List (String × String)) (k v : String) :
    List (String × String) :=
  if (m.lookup k).isSome then
    m.map (fun p => if p.1 = k then (k, v) else p)
  else m ++ [(k, v)]

/-- Lines 455–477: populate `bgCache` for the default background.
Returns `(cache, load/fetch events, saved-to-disk flag)`; `none` means the
awaited download promise never settles (the process hangs there). -/
def defaultBgPhase (env : Env) :
    Option (List (String × String) × List String × Bool) :=
  match env.fs DEFAULT_BG_PATH with
  | some bytes =>
      some (mapSet [] DEFAULT_BG_PATH (loadImageAsBase64 DEFAULT_BG_PATH bytes),
        [DEFAULT_BG_PATH], false)
  | none =>
    match downloadFile DEFAULT_BG_URL env.net with
    | none => none
    | some (DLResult.ok buffer) =>
        some (mapSet [] DEFAULT_BG_PATH
          ("data:image/jpeg;base64," ++ base64Encode buffer),
          [DEFAULT_BG_PATH], true)
    | some _ =>
        some (mapSet [] DEFAULT_BG_PATH PLACEHOLDER_DATA_URI,
          [DEFAULT_BG_PATH], false)

/-- Lines 480–493: load per-page background overrides, deduplicated through
`bgCache.has`. Accumulates `(cache, loads, warned slugs)`. -/
def overridePhase (env : Env) :
    List PageConfig → List (String × String) → List String → List String →
      List (String × String) × List String × List String
  | [], cache, loads, warns => (cache, loads, warns)
  | page :: rest, cache, loads, warns =>
    match page.bgImage with
    | none => overridePhase env rest cache loads warns
    | some bi =>
      let fullPath := joinPath PROJECT_ROOT bi
      if (cache.lookup fullPath).isSome then
        overridePhase env rest cache loads warns
      else
        match env.fs fullPath with
        | some bytes =>
            overridePhase env rest
              (mapSet cache fullPath (loadImageAsBase64 fullPath bytes))
              (loads ++ [fullPath]) warns
        | none => overridePhase env rest cache loads (warns ++ [page.slug])

/-- The `fontFiles` array of line 496. -/
def fontFiles : List String :=
  ["Montserrat-Bold.ttf", "Montserrat-Medium.ttf", "Montserrat-Regular.ttf"]

/-- Prefix test on character lists, for `containsSub`. -/
def hasPrefixL : List Char → List Char → Bool
  | [], _ => true
  | _ :: _, [] => false
  | p :: ps, x :: xs => p = x && hasPrefixL ps xs

/-- Substring test on character lists, for `containsSub`. -/
def hasSubstr (needle : List Char) : List Char → Bool
  | [] => needle.isEmpty
  | x :: xs => hasPrefixL needle (x :: xs) || hasSubstr needle xs

/-- JS `String.prototype.includes`. -/
def containsSub (s sub : String) : Bool := hasSubstr sub.toList s.toList

/-- The weight ternary of line 507. -/
def fontWeightOf (fontFile : String) : Nat :=
  if containsSub fontFile "Bold" then 700
  else if containsSub fontFile "Medium" then 500
  else 400

/-- Lines 499–514: load the three required fonts; `none` models
`process.exit(1)` at the first missing file. -/
def fontPhase (env : Env) : List String → Option (List FontEntry)
  | [] => some []
  | f :: rest =>
    match env.fs (joinPath FONTS_DIR f) with
    | none => none
    | some bytes =>
      (fontPhase env rest).map fun tail =>
        { name := "Montserrat", data := bytes, weight := fontWeightOf f,
          style := "normal" } :: tail

/-- Lines 522–527: the background data URI the generation loop hands to
`createOGTemplate` for one page. -/
def effectiveBg (cache : List (String × String)) (page : PageConfig) :
    String :=
  let bgDataUrl := (cache.lookup DEFAULT_BG_PATH).getD ""
  match page.bgImage with
  | none => bgDataUrl
  | some bi => (cache.lookup (joinPath PROJECT_ROOT bi)).getD bgDataUrl

/-- `og-{slug}.png` (line 409). -/
def ogFileName (page : PageConfig) : String := "og-" ++ page.slug ++ ".png"

/-- Accumulated observable output of the generation loop. -/
structure GenOut where
  /-- Files written under `OUTPUT_DIR`, in write order, with their bytes. -/
  ogFiles : List (String × List Nat)
  /-- The `generated` array: filenames pushed after a successful write. -/
  generated : List String
  /-- Slugs whose `try` block threw (`❌ Failed` log lines). -/
  failLogs : List String
  /-- Slugs for which `generateOGImage` was invoked, in order. -/
  renderCalls : List String
deriving DecidableEq, Repr

/-- Lines 520–538: the per-page generation loop with its `try`/`catch`. -/
def genLoop (env : Env) (fonts : List FontEntry)
    (cache : List (String × String)) : List PageConfig → GenOut
  | [] => ⟨[], [], [], []⟩
  | page :: rest =>
    let bgDataUrl := effectiveBg cache page
    let filename := ogFileName page
    let out := genLoop env fonts cache rest
    match env.render (createOGTemplate page bgDataUrl) fonts with
    | some png =>
        ⟨(filename, png) :: out.ogFiles, filename :: out.generated,
          out.failLogs, page.slug :: out.renderCalls⟩
    | none =>
        ⟨out.ogFiles, out.generated, page.slug :: out.failLogs,
          page.slug :: out.renderCalls⟩

/-- Everything observable about one completed run of `main`. -/
structure RunResult where
  /-- 0 = fell off the end of `main`; 1 = `process.exit(1)`. -/
  exitCode : Nat
  ogFiles : List (String × List Nat)
  generated : List String
  /-- The summary line's numerator (`generated.length`). -/
  summarySuccess : Nat
  /-- The summary line's denominator (`PAGES.length`). -/
  summaryTotal : Nat
  /-- Background read/fetch operations, in order, keyed by resolved path. -/
  loads : List String
  /-- Slugs whose override background was missing (warning lines). -/
  warnings : List String
  /-- Final contents of `bgCache`. -/
  cache : List (String × String)
  savedDefaultBg : Bool
  failLogs : List String
  renderCalls : List String
deriving DecidableEq, Repr

/-- `main()` (lines 433–545), generalised over the page list it closes
over; the script instantiates it with `PAGES`. `none` models a run that
hangs awaiting the default-background download. -/
def runMain (pages : List PageConfig) (env : Env) : Option RunResult :=
  match defaultBgPhase env with
  | none => none
  | some (cache0, loads0, saved) =>
    let op := overridePhase env pages cache0 loads0 []
    match fontPhase env fontFiles with
    | none =>
        some { exitCode := 1, ogFiles := [], generated := [],
               summarySuccess := 0, summaryTotal := 0, loads := op.2.1,
               warnings := op.2.2, cache := op.1, savedDefaultBg := saved,
               failLogs := [], renderCalls := [] }
    | some fonts =>
        let gen := genLoop env fonts op.1 pages
        some { exitCode := 0, ogFiles := gen.ogFiles,
               generated := gen.generated,
               summarySuccess := gen.generated.length,
               summaryTotal := pages.length, loads := op.2.1,
               warnings := op.2.2, cache := op.1, savedDefaultBg := saved,
               failLogs := gen.failLogs, renderCalls := gen.renderCalls }

/-! ## Statement-level vocabulary -/

/-- A single redirect hop: a response whose status is the hop's first
component, carrying a `Location` header with the hop's second component. -/
def redirectHop (p : Nat × String) : NetEvent :=
  NetEvent.resp p.1 (some p.2) [] true

/-- A trace consisting of a sequence of redirect hops followed by one final
response. -/
def redirectChain (hops : List (Nat × String)) (final : NetEvent) :
    List NetEvent :=
  hops.map redirectHop ++ [final]

/-- The MIME selection exactly as claim C6 words it: "mime is derived from
the lowercased file extension as jpg|jpeg→image/jpeg, png→image/png,
webp→image/webp, and any other or missing extension yields image/jpeg".
A path without a dot has no extension, so it falls in the "missing" case. -/
def claimMime (path : String) : String :=
  let parts := splitOnChar '.' (toLowerStr path).toList
  if parts.length ≤ 1 then "image/jpeg"
  else match String.mk (parts.getLastD []) with
    | "jpg" => "image/jpeg"
    | "jpeg" => "image/jpeg"
    | "png" => "image/png"
    | "webp" => "image/webp"
    | _ => "image/jpeg"

/-- The MIME selection the code actually performs, phrased on the last
dot-separated segment of the lowercased path (which is the whole path when
no dot occurs). -/
def amendedMime (path : String) : String :=
  let seg := lastDotSegment path
  if seg = "jpg" ∨ seg = "jpeg" then "image/jpeg"
  else if seg = "png" then "image/png"
  else if seg = "webp" then "image/webp"
  else "image/jpeg"

/-- The render outcome the generation loop observes for one page: the
oracle applied to the page's built tree under its effective background. -/
def pageOutcome (env : Env) (fonts : List FontEntry)
    (cache : List (String × String)) (p : PageConfig) : Option (List Nat) :=
  env.render (createOGTemplate p (effectiveBg cache p)) fonts

/-- The resolved absolute paths of the per-page background overrides, in
declaration order (with multiplicity). -/
def overridePaths (pages : List PageConfig) : List String :=
  pages.filterMap (fun p => p.bgImage.map (joinPath PROJECT_ROOT))

/-- All background paths a run references: the default plus the resolved
overrides. -/
def referencedPaths (pages : List PageConfig) : List String :=
  DEFAULT_BG_PATH :: overridePaths pages

/-- First occurrences, among paths not in `seen`, of paths that exist in
the filesystem. -/
def distinctExistingAux (env : Env) (seen : List String) :
    List String → List String
  | [] => []
  | q :: qs =>
    if q ∈ seen then distinctExistingAux env seen qs
    else if (env.fs q).isSome then
      q :: distinctExistingAux env (seen ++ [q]) qs
    else distinctExistingAux env seen qs

/-- The distinct referenced background paths that exist in the filesystem,
in first-reference order — claim C5's "number of distinct resolved paths
that exist" is the length of this list. -/
def distinctExisting (pages : List PageConfig) (env : Env) : List String :=
  distinctExistingAux env [] (referencedPaths pages)

/-- The background read/fetch operations a run actually performs: one for
the default background (a local read or a network fetch), then the first
occurrence of each existing override path. -/
def expectedLoads (pages : List PageConfig) (env : Env) : List String :=
  DEFAULT_BG_PATH
    :: distinctExistingAux env [DEFAULT_BG_PATH] (overridePaths pages)

/-! ## Concrete scenarios used by witnesses and counterexamples -/

/-- A fixed concrete page used to instantiate C7. -/
def pageC7 : PageConfig :=
  { slug := "w", title := "W", subtitle := "w", description := "w",
    badge := "w" }

/-- Concrete pages: two plain pages, one of which will fail to render, two
sharing an existing override background, and one with a missing override. -/
def pagesW : List PageConfig :=
  [ { slug := "a", title := "A", subtitle := "s", description := "d",
      badge := "g" },
    { slug := "b", title := "B", subtitle := "s", description := "d",
      badge := "g" },
    { slug := "c", title := "C", subtitle := "s", description := "d",
      badge := "g", bgImage := some "assets/bg/custom.jpg" },
    { slug := "d", title := "D", subtitle := "s", description := "d",
      badge := "g", bgImage := some "assets/bg/custom.jpg" },
    { slug := "e", title := "E", subtitle := "s", description := "d",
      badge := "g", bgImage := some "assets/bg/missing.jpg" } ]

/-- Concrete environment: all three fonts and the default background are
present, one override background exists, and rendering fails exactly for
the page titled "B". -/
def envW : Env :=
  { fs := fun p =>
      if p = joinPath FONTS_DIR "Montserrat-Bold.ttf" then some [1]
      else if p = joinPath FONTS_DIR "Montserrat-Medium.ttf" then some [2]
      else if p = joinPath FONTS_DIR "Montserrat-Regular.ttf" then some [3]
      else if p = DEFAULT_BG_PATH then some [77]
      else if p = joinPath PROJECT_ROOT "assets/bg/custom.jpg" then some [88]
      else none,
    net := [],
    render := fun t _ => if treeTitle t = some "B" then none else some [9] }

/-- The default-background phase outcome in `envW`. -/
def bgTW : List (String × String) × List String × Bool :=
  ([(DEFAULT_BG_PATH, loadImageAsBase64 DEFAULT_BG_PATH [77])],
    [DEFAULT_BG_PATH], false)

/-- The font set loaded in `envW`. -/
def fontsW : List FontEntry :=
  [ ⟨"Montserrat", [1], 700, "normal"⟩,
    ⟨"Montserrat", [2], 500, "normal"⟩,
    ⟨"Montserrat", [3], 400, "normal"⟩ ]

/-- The override-phase outcome in `envW` over `pagesW`: the shared
existing override is cached and loaded once, the missing one warns. -/
def opW : List (String × String) × List String × List String :=
  ([(DEFAULT_BG_PATH, loadImageAsBase64 DEFAULT_BG_PATH [77]),
    (joinPath PROJECT_ROOT "assets/bg/custom.jpg",
      loadImageAsBase64 (joinPath PROJECT_ROOT "assets/bg/custom.jpg") [88])],
   [DEFAULT_BG_PATH, joinPath PROJECT_ROOT "assets/bg/custom.jpg"], ["e"])

/-- `envW` with the Regular font removed. -/
def envW2 : Env :=
  { envW with
    fs := fun p =>
      if p = joinPath FONTS_DIR "Montserrat-Regular.ttf" then none
      else envW.fs p }

/-- Environment with an empty filesystem whose sole download attempt fails
at the transport level. -/
def env4 : Env :=
  { fs := fun _ => none, net := [NetEvent.connError],
    render := fun _ _ => none }

/-- Environment with an empty filesystem whose download succeeds after one
redirect, delivering body `[5]`. -/
def env9 : Env :=
  { fs := fun _ => none,
    net := [NetEvent.resp 301 (some "u1") [] true,
            NetEvent.resp 200 none [[5]] true],
    render := fun _ _ => none }

end OGGen

namespace OGGen

/-! ## Claims about `downloadFile` -/

/-- C3: for every URL the download issues a GET against it; each 301/302
response with a `Location` header re-issues the request against that URL,
for arbitrarily many hops; a terminal non-200 status rejects with an error
carrying that status; a terminal 200 resolves with the concatenation of all
body chunks, and only once the stream has ended. -/
theorem c3_download_follows_redirects_and_statuses (url : String)
    (hops : List (Nat × String))
    (hhops : ∀ p ∈ hops, p.1 = 301 ∨ p.1 = 302)
    (chunks : List (List Nat)) (st : Nat) :
    (downloadGo url (redirectChain hops (NetEvent.resp 200 none chunks true))
        = (url :: hops.map Prod.snd, some (DLResult.ok chunks.flatten)))
    ∧ (st ≠ 200 → st ≠ 301 → st ≠ 302 →
        downloadGo url (redirectChain hops (NetEvent.resp st none chunks true))
          = (url :: hops.map Prod.snd, some (DLResult.httpError st)))
    ∧ (downloadGo url (redirectChain hops (NetEvent.resp 200 none chunks false))
        = (url :: hops.map Prod.snd, some DLResult.transportError)) := by
  induction hops generalizing url with
  | nil =>
    refine ⟨?_, fun h1 h2 h3 => ?_, ?_⟩ <;>
      simp [redirectChain, downloadGo, *]
  | cons hd tl ih =>
    obtain ⟨s, l⟩ := hd
    have hs : s = 301 ∨ s = 302 := hhops (s, l) (List.mem_cons_self _ _)
    have htl : ∀ p ∈ tl, p.1 = 301 ∨ p.1 = 302 :=
      fun p hp => hhops p (List.mem_cons_of_mem _ hp)
    have step : ∀ t : NetEvent,
        downloadGo url (redirectChain ((s, l) :: tl) t)
          = (url :: (downloadGo l (redirectChain tl t)).1,
             (downloadGo l (redirectChain tl t)).2) := by
      intro t
      simp [redirectChain, redirectHop, downloadGo, hs]
    obtain ⟨ih1, ih2, ih3⟩ := ih l htl
    refine ⟨?_, fun h1 h2 h3 => ?_, ?_⟩
    · rw [step, ih1]
      rfl
    · rw [step, ih2 h1 h2 h3]
      rfl
    · rw [step, ih3]
      rfl

/-- C3 witness: a 301 → 302 → 200 chain resolves to the joined body along
the redirect targets, and a 301 → 302 → 404 chain rejects with status
404. -/
theorem c3_download_follows_redirects_and_statuses_witness :
    (∀ p ∈ [((301 : Nat), "u1"), (302, "u2")], p.1 = 301 ∨ p.1 = 302)
    ∧ (404 : Nat) ≠ 200 ∧ (404 : Nat) ≠ 301 ∧ (404 : Nat) ≠ 302
    ∧ downloadGo "u0" (redirectChain [(301, "u1"), (302, "u2")]
        (NetEvent.resp 200 none [[1], [2, 3]] true))
        = (["u0", "u1", "u2"], some (DLResult.ok [1, 2, 3]))
    ∧ downloadGo "u0" (redirectChain [(301, "u1"), (302, "u2")]
        (NetEvent.resp 404 none [[1], [2, 3]] true))
        = (["u0", "u1", "u2"], some (DLResult.httpError 404)) := by
  refine ⟨by decide, by decide, by decide, by decide, ?_, ?_⟩
  · exact (c3_download_follows_redirects_and_statuses "u0"
      [(301, "u1"), (302, "u2")] (by decide) [[1], [2, 3]] 404).1
  · exact (c3_download_follows_redirects_and_statuses "u0"
      [(301, "u1"), (302, "u2")] (by decide) [[1], [2, 3]] 404).2.1
      (by decide) (by decide) (by decide)

/-- C10: a 301/302 response without a `Location` header is not followed; it
falls through to the status check and the download rejects with an error
carrying that 3xx status code. -/
theorem c10_redirect_without_location_rejects (url : String) (st : Nat)
    (hst : st = 301 ∨ st = 302) (chunks : List (List Nat))
    (streamEnd : Bool) (rest : List NetEvent) :
    downloadGo url (NetEvent.resp st none chunks streamEnd :: rest)
      = ([url], some (DLResult.httpError st)) := by
  rcases hst with h | h <;> subst h <;> simp [downloadGo]

/-- C10 witness: a bare 302 with no `Location` header rejects with
status 302. -/
theorem c10_redirect_without_location_rejects_witness :
    ((302 : Nat) = 301 ∨ (302 : Nat) = 302)
    ∧ downloadGo "u0" [NetEvent.resp 302 none [[7]] true]
        = (["u0"], some (DLResult.httpError 302)) :=
  ⟨by decide, c10_redirect_without_location_rejects "u0" 302 (by decide)
    [[7]] true []⟩

/-! ## Claims about `loadImageAsBase64` and `createOGTemplate` -/

/-- C6 counterexample: for the dotless path `"png"`, the extension is
missing, so the claim's mapping yields `image/jpeg`; the code instead uses
the whole path as the lookup key and produces `image/png`. -/
theorem c6_local_mime_counterexample :
    loadImageAsBase64 "png" []
      ≠ "data:" ++ claimMime "png" ++ ";base64," ++ base64Encode [] := by
  decide

/-- The code's `mimeTypes[ext || 'jpg'] || 'image/jpeg'` chain agrees with
the four-way case split of `amendedMime`. -/
theorem mime_select_eq (e : String) :
    (mimeTypesLookup (if e = "" then "jpg" else e)).getD "image/jpeg"
      = (if e = "jpg" ∨ e = "jpeg" then "image/jpeg"
         else if e = "png" then "image/png"
         else if e = "webp" then "image/webp"
         else "image/jpeg") := by
  by_cases h0 : e = ""
  · subst h0; rfl
  by_cases h1 : e = "jpg"
  · subst h1; rfl
  by_cases h2 : e = "jpeg"
  · subst h2; rfl
  by_cases h3 : e = "png"
  · subst h3; rfl
  by_cases h4 : e = "webp"
  · subst h4; rfl
  simp [mimeTypesLookup, h0, h1, h2, h3, h4]

/-- C6 amended: loading a local image returns
`data:{mime};base64,{base64 of the file bytes}`, where `{mime}` is derived
from the lowercased last dot-separated segment of the path (the extension
when the path has a dot, the entire path when it has none) as
jpg|jpeg→image/jpeg, png→image/png, webp→image/webp, with any other or
empty segment yielding image/jpeg. -/
theorem c6_local_mime_amended (path : String) (bytes : List Nat) :
    loadImageAsBase64 path bytes
      = "data:" ++ amendedMime path ++ ";base64," ++ base64Encode bytes := by
  simp only [loadImageAsBase64, amendedMime]
  rw [mime_select_eq]

/-- C7: the template builder is deterministic — two calls on equal page
configurations and equal background data URIs return structurally equal
visual trees (and the embedded builder is a pure function, performing no
I/O). -/
theorem c7_template_deterministic (p1 p2 : PageConfig) (b1 b2 : String)
    (hp : p1 = p2) (hb : b1 = b2) :
    createOGTemplate p1 b1 = createOGTemplate p2 b2 := by
  rw [hp, hb]

/-- C7 witness: the determinism theorem applied to one concrete page and
background URI. -/
theorem c7_template_deterministic_witness :
    pageC7 = pageC7 ∧ "data:image/jpeg;base64," = "data:image/jpeg;base64,"
    ∧ createOGTemplate pageC7 "data:image/jpeg;base64,"
        = createOGTemplate pageC7 "data:image/jpeg;base64," :=
  ⟨rfl, rfl, c7_template_deterministic pageC7 pageC7 _ _ rfl rfl⟩

/-- C8: the divider's accent colors are the page's override when present
and otherwise the default triple `#e26b34`/`#336851`/`#1b3c65`, and its
background is exactly the left-to-right
`linear-gradient(90deg, start 0%, middle 50%, end 100%)` string. -/
theorem c8_divider_accent_colors (page : PageConfig) (bg : String) :
    dividerBackground (createOGTemplate page bg)
      = some ("linear-gradient(90deg, "
          ++ (page.accentColors.getD ⟨"#e26b34", "#336851", "#1b3c65"⟩).start
          ++ " 0%, "
          ++ (page.accentColors.getD ⟨"#e26b34", "#336851", "#1b3c65"⟩).middle
          ++ " 50%, "
          ++ (page.accentColors.getD ⟨"#e26b34", "#336851", "#1b3c65"⟩).«end»
          ++ " 100%)") := by
  obtain ⟨s, t, st, d, b, bi, ac⟩ := page
  cases ac <;> rfl

/-! ## Cache and phase lemmas -/

/-- A key bound in the left list keeps its binding under appending. -/
theorem lookup_append_of_isSome (k : String) (c d : List (String × String))
    (h : (c.lookup k).isSome) : (c ++ d).lookup k = c.lookup k := by
  induction c with
  | nil => simp [List.lookup] at h
  | cons a c ih =>
    obtain ⟨ka, va⟩ := a
    by_cases hk : k = ka
    · subst hk; simp [List.lookup]
    · have hbeq : (k == ka) = false := beq_eq_false_iff_ne.mpr hk
      simp only [List.lookup, hbeq, List.cons_append] at h ⊢
      exact ih h

/-- `bgCache.has` in terms of the cache's key list. -/
theorem lookup_isSome_iff_mem (k : String) (c : List (String × String)) :
    (c.lookup k).isSome = true ↔ k ∈ c.map Prod.fst := by
  induction c with
  | nil => simp [List.lookup]
  | cons a c ih =>
    obtain ⟨ka, va⟩ := a
    by_cases hk : k = ka
    · subst hk; simp [List.lookup]
    · have hbeq : (k == ka) = false := beq_eq_false_iff_ne.mpr hk
      simp [List.lookup, hbeq, hk, ih]

/-- Lines 457–459: a locally present default background is read and cached
through `loadImageAsBase64`. -/
theorem defaultBgPhase_local (env : Env) (bytes : List Nat)
    (h : env.fs DEFAULT_BG_PATH = some bytes) :
    defaultBgPhase env
      = some ([(DEFAULT_BG_PATH, loadImageAsBase64 DEFAULT_BG_PATH bytes)],
          [DEFAULT_BG_PATH], false) := by
  simp [defaultBgPhase, h, mapSet, List.lookup]

/-- Lines 461–471: a successful download caches a `image/jpeg` data URI of
the downloaded bytes and saves them to disk. -/
theorem defaultBgPhase_download_ok (env : Env) (b : List Nat)
    (h : env.fs DEFAULT_BG_PATH = none)
    (hd : downloadFile DEFAULT_BG_URL env.net = some (DLResult.ok b)) :
    defaultBgPhase env
      = some ([(DEFAULT_BG_PATH, "data:image/jpeg;base64," ++ base64Encode b)],
          [DEFAULT_BG_PATH], true) := by
  simp [defaultBgPhase, h, hd, mapSet, List.lookup]

/-- Lines 472–476: a download rejected with an HTTP error caches the
placeholder. -/
theorem defaultBgPhase_download_httpError (env : Env) (st : Nat)
    (h : env.fs DEFAULT_BG_PATH = none)
    (hd : downloadFile DEFAULT_BG_URL env.net
      = some (DLResult.httpError st)) :
    defaultBgPhase env
      = some ([(DEFAULT_BG_PATH, PLACEHOLDER_DATA_URI)],
          [DEFAULT_BG_PATH], false) := by
  simp [defaultBgPhase, h, hd, mapSet, List.lookup]

/-- Lines 472–476: a download rejected at the transport level caches the
placeholder. -/
theorem defaultBgPhase_download_transport (env : Env)
    (h : env.fs DEFAULT_BG_PATH = none)
    (hd : downloadFile DEFAULT_BG_URL env.net
      = some DLResult.transportError) :
    defaultBgPhase env
      = some ([(DEFAULT_BG_PATH, PLACEHOLDER_DATA_URI)],
          [DEFAULT_BG_PATH], false) := by
  simp [defaultBgPhase, h, hd, mapSet, List.lookup]

/-- A missing font file anywhere in the list makes the font phase exit. -/
theorem fontPhase_none_of_missing (env : Env) (l : List String)
    (hmiss : ∃ f ∈ l, env.fs (joinPath FONTS_DIR f) = none) :
    fontPhase env l = none := by
  induction l with
  | nil => obtain ⟨f, hf, _⟩ := hmiss; simp at hf
  | cons g gs ih =>
    obtain ⟨f, hf, hnone⟩ := hmiss
    rcases List.mem_cons.mp hf with rfl | hmem
    · simp [fontPhase, hnone]
    · cases hg : env.fs (joinPath FONTS_DIR g) with
      | none => simp [fontPhase, hg]
      | some bytes => simp [fontPhase, hg, ih ⟨f, hmem, hnone⟩]

/-- The override phase never rebinds a key that is already cached. -/
theorem overridePhase_lookup (env : Env) (k : String) :
    ∀ (ps : List PageConfig) (c : List (String × String)) (l w : List String),
      (c.lookup k).isSome →
      ((overridePhase env ps c l w).1).lookup k = c.lookup k := by
  intro ps
  induction ps with
  | nil => intro c l w h; rfl
  | cons p ps ih =>
    intro c l w h
    cases hbi : p.bgImage with
    | none =>
      simp only [overridePhase, hbi]
      exact ih c l w h
    | some bi =>
      by_cases hc : (c.lookup (joinPath PROJECT_ROOT bi)).isSome
      · simp only [overridePhase, hbi, hc, if_true]
        exact ih c l w h
      · cases hfs : env.fs (joinPath PROJECT_ROOT bi) with
        | none =>
          simp only [overridePhase, hbi, Bool.not_eq_true] at hc ⊢
          rw [hc]
          simp only [Bool.false_eq_true, if_false, hfs]
          exact ih c _ _ h
        | some bytes =>
          have hm : mapSet c (joinPath PROJECT_ROOT bi)
              (loadImageAsBase64 (joinPath PROJECT_ROOT bi) bytes)
              = c ++ [(joinPath PROJECT_ROOT bi,
                  loadImageAsBase64 (joinPath PROJECT_ROOT bi) bytes)] := by
            simp only [mapSet, Bool.not_eq_true] at hc ⊢
            rw [hc]
            simp
          have happ := lookup_append_of_isSome k c
            [(joinPath PROJECT_ROOT bi,
              loadImageAsBase64 (joinPath PROJECT_ROOT bi) bytes)] h
          simp only [overridePhase, hbi, Bool.not_eq_true] at hc ⊢
          rw [hc]
          simp only [Bool.false_eq_true, if_false, hfs, hm]
          rw [ih _ _ _ (by rw [happ]; exact h)]
          exact happ

/-- Whatever value the default-background phase cached for
`DEFAULT_BG_PATH` is still its cache entry at the end of the run, and the
run completes with exit code 0 or 1 according to font availability. -/
theorem runMain_default_entry (pages : List PageConfig) (env : Env)
    (v : String) (l0 : List String) (sv : Bool)
    (hbg : defaultBgPhase env = some ([(DEFAULT_BG_PATH, v)], l0, sv)) :
    (runMain pages env).map
        (fun r => (r.cache.lookup DEFAULT_BG_PATH, r.exitCode))
      = some (some v, if (fontPhase env fontFiles).isSome then 0 else 1) := by
  have hbase : List.lookup DEFAULT_BG_PATH [(DEFAULT_BG_PATH, v)]
      = some v := by
    simp [List.lookup]
  have hpres :
      ((overridePhase env pages [(DEFAULT_BG_PATH, v)] l0 []).1).lookup
          DEFAULT_BG_PATH = some v := by
    rw [overridePhase_lookup env DEFAULT_BG_PATH pages _ l0 []
      (by rw [hbase]; rfl)]
    exact hbase
  cases hf : fontPhase env fontFiles <;>
    simp [runMain, hbg, hf, hpres]

/-! ## Claims about `main` -/

/-- C2: in any run that reaches the font check, a missing required font
file makes the process exit with code 1, with zero `og-{slug}.png` files
written and no page rendered, whatever the page list. -/
theorem c2_missing_font_fatal (pages : List PageConfig) (env : Env)
    (t : List (String × String) × List String × Bool)
    (hbg : defaultBgPhase env = some t)
    (hmiss : ∃ f ∈ fontFiles, env.fs (joinPath FONTS_DIR f) = none) :
    (runMain pages env).map (fun r => (r.exitCode, r.ogFiles, r.renderCalls))
      = some (1, [], []) := by
  obtain ⟨c0, l0, sv⟩ := t
  simp [runMain, hbg, fontPhase_none_of_missing env fontFiles hmiss]

/-- C2 witness: with the Regular font absent and three valid pages, the
run exits with code 1, writes no `og-*.png` file and renders no page. -/
theorem c2_missing_font_fatal_witness :
    defaultBgPhase envW2 = some bgTW
    ∧ (∃ f ∈ fontFiles, envW2.fs (joinPath FONTS_DIR f) = none)
    ∧ (runMain pagesW envW2).map
        (fun r => (r.exitCode, r.ogFiles, r.renderCalls))
      = some (1, [], []) :=
  ⟨rfl, ⟨"Montserrat-Regular.ttf", by decide, rfl⟩,
    c2_missing_font_fatal pagesW envW2 bgTW rfl
      ⟨"Montserrat-Regular.ttf", by decide, rfl⟩⟩

/-- C4: when the default background is absent locally, a download that
fails — a chain ending in a non-200 status, or a transport error — is
recovered by caching the placeholder data URI, the run continues (its exit
code is governed by fonts alone), and a download ending in a 200 caches
that response's body as the default background. -/
theorem c4_default_bg_failure_recovered (pages : List PageConfig)
    (env : Env) (hmiss : env.fs DEFAULT_BG_PATH = none) :
    (∀ st, downloadFile DEFAULT_BG_URL env.net = some (DLResult.httpError st) →
        (runMain pages env).map
            (fun r => (r.cache.lookup DEFAULT_BG_PATH, r.exitCode))
          = some (some PLACEHOLDER_DATA_URI,
              if (fontPhase env fontFiles).isSome then 0 else 1))
    ∧ (downloadFile DEFAULT_BG_URL env.net = some DLResult.transportError →
        (runMain pages env).map
            (fun r => (r.cache.lookup DEFAULT_BG_PATH, r.exitCode))
          = some (some PLACEHOLDER_DATA_URI,
              if (fontPhase env fontFiles).isSome then 0 else 1))
    ∧ (∀ b, downloadFile DEFAULT_BG_URL env.net = some (DLResult.ok b) →
        (runMain pages env).map
            (fun r => (r.cache.lookup DEFAULT_BG_PATH, r.exitCode))
          = some (some ("data:image/jpeg;base64," ++ base64Encode b),
              if (fontPhase env fontFiles).isSome then 0 else 1)) := by
  refine ⟨fun st hd => ?_, fun hd => ?_, fun b hd => ?_⟩
  · exact runMain_default_entry pages env _ _ _
      (defaultBgPhase_download_httpError env st hmiss hd)
  · exact runMain_default_entry pages env _ _ _
      (defaultBgPhase_download_transport env hmiss hd)
  · exact runMain_default_entry pages env _ _ _
      (defaultBgPhase_download_ok env b hmiss hd)

/-- C4 witness: with no local default background and a transport-level
download failure, the run completes with the placeholder cached as the
default background. -/
theorem c4_default_bg_failure_recovered_witness :
    env4.fs DEFAULT_BG_PATH = none
    ∧ downloadFile DEFAULT_BG_URL env4.net = some DLResult.transportError
    ∧ (runMain pagesW env4).map
        (fun r => (r.cache.lookup DEFAULT_BG_PATH, r.exitCode))
      = some (some PLACEHOLDER_DATA_URI, 1) :=
  ⟨rfl, rfl,
    (c4_default_bg_failure_recovered pagesW env4 rfl).2.1 rfl⟩

/-- C9: a default background fetched over the network is always cached
with MIME label `image/jpeg`, whatever the URL's extension or the bytes'
format; a locally read default background instead goes through
`loadImageAsBase64` and its extension-derived MIME type. -/
theorem c9_network_default_bg_mime (pages : List PageConfig) (env : Env) :
    (∀ b, env.fs DEFAULT_BG_PATH = none →
        downloadFile DEFAULT_BG_URL env.net = some (DLResult.ok b) →
        (runMain pages env).map (fun r => r.cache.lookup DEFAULT_BG_PATH)
          = some (some ("data:image/jpeg;base64," ++ base64Encode b)))
    ∧ (∀ bytes, env.fs DEFAULT_BG_PATH = some bytes →
        (runMain pages env).map (fun r => r.cache.lookup DEFAULT_BG_PATH)
          = some (some (loadImageAsBase64 DEFAULT_BG_PATH bytes))) := by
  constructor
  · intro b hfs hd
    have h := runMain_default_entry pages env _ _ _
      (defaultBgPhase_download_ok env b hfs hd)
    cases hr : runMain pages env with
    | none => rw [hr] at h; simp at h
    | some r =>
      rw [hr] at h
      simp only [Option.map_some', Option.some.injEq, Prod.mk.injEq] at h
      simp [hr, h.1]
  · intro bytes hfs
    have h := runMain_default_entry pages env _ _ _
      (defaultBgPhase_local env bytes hfs)
    cases hr : runMain pages env with
    | none => rw [hr] at h; simp at h
    | some r =>
      rw [hr] at h
      simp only [Option.map_some', Option.some.injEq, Prod.mk.injEq] at h
      simp [hr, h.1]

/-- C9 witness: a 301 → 200 chain delivering body `[5]` for a URL ending
in `.jpg` caches `data:image/jpeg;base64,BQ==`; a local default background
named `og-background.jpg` goes through `loadImageAsBase64`. -/
theorem c9_network_default_bg_mime_witness :
    env9.fs DEFAULT_BG_PATH = none
    ∧ downloadFile DEFAULT_BG_URL env9.net = some (DLResult.ok [5])
    ∧ (runMain pagesW env9).map (fun r => r.cache.lookup DEFAULT_BG_PATH)
      = some (some "data:image/jpeg;base64,BQ==") :=
  ⟨rfl, rfl,
    (c9_network_default_bg_mime pagesW env9).1 [5] rfl rfl⟩

/-- The generation loop, characterised page by page: every page is
attempted in declared order; a page writes its file and is counted exactly
when its render oracle succeeds; a failing page is logged and skipped. -/
theorem genLoop_spec (env : Env) (fonts : List FontEntry)
    (cache : List (String × String)) (pages : List PageConfig) :
    genLoop env fonts cache pages =
      ⟨pages.filterMap (fun p => (pageOutcome env fonts cache p).map
          (fun b => (ogFileName p, b))),
        pages.filterMap (fun p => (pageOutcome env fonts cache p).map
          (fun _ => ogFileName p)),
        (pages.filter (fun p => (pageOutcome env fonts cache p).isNone)).map
          PageConfig.slug,
        pages.map PageConfig.slug⟩ := by
  induction pages with
  | nil => rfl
  | cons p ps ih =>
    simp only [genLoop, ih, pageOutcome, List.filterMap_cons,
      List.filter_cons]
    cases h : env.render (createOGTemplate p (effectiveBg cache p)) fonts <;>
      simp [h]

/-- Dropping `none`s counts the same entries whatever is made of the
values. -/
theorem filterMap_map_length {α β γ δ : Type} (l : List α) (o : α → Option β)
    (f : α → β → γ) (g : α → β → δ) :
    (l.filterMap (fun a => (o a).map (f a))).length
      = (l.filterMap (fun a => (o a).map (g a))).length := by
  induction l with
  | nil => rfl
  | cons a t ih => cases h : o a <;> simp [List.filterMap_cons, h, ih]

/-- C1: in a run with all fonts present, every page is processed in
declared order; a page whose build or rasterize step fails is logged and
contributes no output file; the files written are exactly those of the
successful pages; and the summary reports the number of completed file
writes out of the total page count. -/
theorem c1_page_failures_isolated (pages : List PageConfig) (env : Env)
    (t : List (String × String) × List String × Bool)
    (hbg : defaultBgPhase env = some t)
    (op : List (String × String) × List String × List String)
    (hov : overridePhase env pages t.1 t.2.1 [] = op)
    (fonts : List FontEntry) (hf : fontPhase env fontFiles = some fonts) :
    (runMain pages env).map (fun r =>
        (r.exitCode, r.renderCalls, r.ogFiles, r.summarySuccess,
          r.summaryTotal, r.failLogs))
      = some (0, pages.map PageConfig.slug,
          pages.filterMap (fun p => (pageOutcome env fonts op.1 p).map
            (fun b => (ogFileName p, b))),
          (pages.filterMap (fun p => (pageOutcome env fonts op.1 p).map
            (fun b => (ogFileName p, b)))).length,
          pages.length,
          (pages.filter
            (fun p => (pageOutcome env fonts op.1 p).isNone)).map
              PageConfig.slug) := by
  obtain ⟨c0, l0, sv⟩ := t
  simp only [runMain, hbg]
  simp only at hov
  simp only [hov, hf, genLoop_spec, Option.map_some', Option.some.injEq,
    Prod.mk.injEq, true_and, and_true]
  exact filterMap_map_length pages (pageOutcome env fonts op.1)
    (fun p _ => ogFileName p) (fun p b => (ogFileName p, b))

/-- C1 witness: five pages of which the one titled "B" fails to render —
all five are attempted in order, four files are written, the summary says
4 of 5, and only slug `b` is logged as failed. -/
theorem c1_page_failures_isolated_witness :
    defaultBgPhase envW = some bgTW
    ∧ overridePhase envW pagesW bgTW.1 bgTW.2.1 [] = opW
    ∧ fontPhase envW fontFiles = some fontsW
    ∧ (runMain pagesW envW).map (fun r =>
        (r.exitCode, r.renderCalls, r.ogFiles, r.summarySuccess,
          r.summaryTotal, r.failLogs))
      = some (0, ["a", "b", "c", "d", "e"],
          [("og-a.png", [9]), ("og-c.png", [9]), ("og-d.png", [9]),
            ("og-e.png", [9])], 4, 5, ["b"]) :=
  ⟨rfl, rfl, rfl,
    c1_page_failures_isolated pagesW envW bgTW rfl opW rfl fontsW rfl⟩

/-! ## Load-dedup lemmas for C5 -/

/-- `distinctExistingAux` only consults the membership of `seen`. -/
theorem distinctExistingAux_congr (env : Env) :
    ∀ (l s₁ s₂ : List String), (∀ x, x ∈ s₁ ↔ x ∈ s₂) →
      distinctExistingAux env s₁ l = distinctExistingAux env s₂ l := by
  intro l
  induction l with
  | nil => intro s₁ s₂ _; rfl
  | cons q qs ih =>
    intro s₁ s₂ hs
    by_cases hq : q ∈ s₁
    · have hq₂ : q ∈ s₂ := (hs q).mp hq
      simp [distinctExistingAux, hq, hq₂, ih _ _ hs]
    · have hq₂ : q ∉ s₂ := fun h => hq ((hs q).mpr h)
      cases hfs : (env.fs q).isSome <;>
        simp [distinctExistingAux, hq, hq₂, hfs, ih _ _ hs,
          ih (s₁ ++ [q]) (s₂ ++ [q]) (by intro x; simp [hs x])]

/-- Results of `distinctExistingAux` avoid the `seen` list. -/
theorem distinctExistingAux_not_mem (env : Env) :
    ∀ (l seen : List String) (x : String),
      x ∈ distinctExistingAux env seen l → x ∉ seen := by
  intro l
  induction l with
  | nil => intro seen x hx; simp [distinctExistingAux] at hx
  | cons q qs ih =>
    intro seen x hx
    by_cases hq : q ∈ seen
    · rw [distinctExistingAux, if_pos hq] at hx
      exact ih seen x hx
    · cases hfs : (env.fs q).isSome with
      | false =>
        rw [distinctExistingAux, if_neg hq, hfs] at hx
        simp only [Bool.false_eq_true, if_false] at hx
        exact ih seen x hx
      | true =>
        rw [distinctExistingAux, if_neg hq, hfs] at hx
        simp only [if_true, List.mem_cons] at hx
        rcases hx with rfl | hx
        · exact hq
        · have := ih (seen ++ [q]) x hx
          intro hxs
          exact this (List.mem_append_left _ hxs)

/-- `distinctExistingAux` returns a duplicate-free list. -/
theorem distinctExistingAux_nodup (env : Env) :
    ∀ (l seen : List String), (distinctExistingAux env seen l).Nodup := by
  intro l
  induction l with
  | nil => intro seen; simp [distinctExistingAux]
  | cons q qs ih =>
    intro seen
    by_cases hq : q ∈ seen
    · rw [distinctExistingAux, if_pos hq]; exact ih seen
    · cases hfs : (env.fs q).isSome with
      | false =>
        rw [distinctExistingAux, if_neg hq, hfs]
        simp only [Bool.false_eq_true, if_false]
        exact ih seen
      | true =>
        rw [distinctExistingAux, if_neg hq, hfs]
        simp only [if_true, List.nodup_cons]
        refine ⟨fun hmem => ?_, ih (seen ++ [q])⟩
        exact distinctExistingAux_not_mem env qs (seen ++ [q]) q hmem
          (List.mem_append_right _ (List.mem_singleton.mpr rfl))

/-- Appending a non-existing path to `seen` does not change the result. -/
theorem distinctExistingAux_dead (env : Env) (dpath : String)
    (hd : (env.fs dpath).isSome = false) :
    ∀ (l seen : List String),
      distinctExistingAux env (seen ++ [dpath]) l
        = distinctExistingAux env seen l := by
  intro l
  induction l with
  | nil => intro seen; rfl
  | cons q qs ih =>
    intro seen
    by_cases hqs : q ∈ seen
    · have hq₁ : q ∈ seen ++ [dpath] := List.mem_append_left _ hqs
      simp [distinctExistingAux, hq₁, hqs, ih]
    · by_cases hqd : q = dpath
      · subst hqd
        have hq₁ : q ∈ seen ++ [q] :=
          List.mem_append_right _ (List.mem_singleton.mpr rfl)
        simp [distinctExistingAux, hq₁, hqs, hd, ih]
      · have hq₁ : q ∉ seen ++ [dpath] := by
          simp [List.mem_append, hqs, hqd]
        cases hfs : (env.fs q).isSome with
        | false => simp [distinctExistingAux, hq₁, hqs, hfs, ih]
        | true =>
          rw [distinctExistingAux, if_neg hq₁, hfs,
            distinctExistingAux, if_neg hqs, hfs]
          simp only [if_true, List.cons.injEq, true_and]
          rw [distinctExistingAux_congr env qs ((seen ++ [dpath]) ++ [q])
            ((seen ++ [q]) ++ [dpath]) (by intro x; simp [List.mem_append]; tauto)]
          exact ih (seen ++ [q])

/-- The override phase's load events are the first occurrences of existing
override paths that are not already cached. -/
theorem overridePhase_loads (env : Env) :
    ∀ (ps : List PageConfig) (c : List (String × String)) (l w : List String),
      (overridePhase env ps c l w).2.1
        = l ++ distinctExistingAux env (c.map Prod.fst) (overridePaths ps) := by
  intro ps
  induction ps with
  | nil => intro c l w; simp [overridePhase, overridePaths, distinctExistingAux]
  | cons p ps ih =>
    intro c l w
    cases hbi : p.bgImage with
    | none =>
      have hop : overridePaths (p :: ps) = overridePaths ps := by
        simp [overridePaths, List.filterMap_cons, hbi]
      simp only [overridePhase, hbi]
      rw [ih, hop]
    | some bi =>
      have hop : overridePaths (p :: ps)
          = joinPath PROJECT_ROOT bi :: overridePaths ps := by
        simp [overridePaths, List.filterMap_cons, hbi]
      by_cases hc : (c.lookup (joinPath PROJECT_ROOT bi)).isSome
      · have hmem : joinPath PROJECT_ROOT bi ∈ c.map Prod.fst :=
          (lookup_isSome_iff_mem _ c).mp hc
        simp only [overridePhase, hbi, hc, if_true]
        rw [ih, hop]
        simp [distinctExistingAux, hmem]
      · have hnmem : joinPath PROJECT_ROOT bi ∉ c.map Prod.fst := by
          rw [← lookup_isSome_iff_mem]
          simpa using hc
        cases hfs : env.fs (joinPath PROJECT_ROOT bi) with
        | none =>
          simp only [overridePhase, hbi, Bool.not_eq_true] at hc ⊢
          rw [hc]
          simp only [Bool.false_eq_true, if_false, hfs]
          rw [ih, hop]
          simp [distinctExistingAux, hnmem, hfs]
        | some bytes =>
          have hm : mapSet c (joinPath PROJECT_ROOT bi)
              (loadImageAsBase64 (joinPath PROJECT_ROOT bi) bytes)
              = c ++ [(joinPath PROJECT_ROOT bi,
                  loadImageAsBase64 (joinPath PROJECT_ROOT bi) bytes)] := by
            simp only [mapSet, Bool.not_eq_true] at hc ⊢
            rw [hc]
            simp
          simp only [overridePhase, hbi, Bool.not_eq_true] at hc ⊢
          rw [hc]
          simp only [Bool.false_eq_true, if_false, hfs, hm]
          rw [ih, hop]
          rw [distinctExistingAux, if_neg hnmem, hfs]
          simp [distinctExistingAux, List.map_append]

/-- Any cached default-background phase outcome has the one-entry shape. -/
theorem defaultBgPhase_shape (env : Env)
    (t : List (String × String) × List String × Bool)
    (h : defaultBgPhase env = some t) :
    ∃ v sv, t = ([(DEFAULT_BG_PATH, v)], [DEFAULT_BG_PATH], sv) := by
  unfold defaultBgPhase at h
  cases hfs : env.fs DEFAULT_BG_PATH with
  | some bytes =>
    rw [hfs] at h
    simp only [mapSet, List.lookup, Option.some.injEq] at h
    exact ⟨_, _, h.symm⟩
  | none =>
    rw [hfs] at h
    cases hd : downloadFile DEFAULT_BG_URL env.net with
    | none => rw [hd] at h; exact absurd h (by simp)
    | some res =>
      rw [hd] at h
      cases res <;>
        · simp only [mapSet, List.lookup, Option.some.injEq] at h
          exact ⟨_, _, h.symm⟩

/-- C5 counterexample: with the default background absent locally, no
override pages, and a download that fails at the transport level, the run
performs one fetch operation while the number of distinct resolved paths
that exist is zero — the claimed equality fails. -/
theorem c5_cache_once_counterexample :
    (runMain [] env4).map (fun r => r.loads.length)
      ≠ some (distinctExisting [] env4).length := by
  decide

/-- C5 amended: background assets are cached by resolved absolute path and
each distinct path is read or fetched at most once per run (the load list
is duplicate-free); the number of load/fetch operations equals the number
of distinct referenced paths that exist, plus one for the default
background's network fetch when it is absent locally. -/
theorem c5_assets_loaded_once (pages : List PageConfig) (env : Env)
    (t : List (String × String) × List String × Bool)
    (hbg : defaultBgPhase env = some t) :
    (runMain pages env).map (fun r => r.loads)
        = some (expectedLoads pages env)
    ∧ (expectedLoads pages env).Nodup
    ∧ (expectedLoads pages env).length
        = (distinctExisting pages env).length
          + (if (env.fs DEFAULT_BG_PATH).isSome then 0 else 1) := by
  obtain ⟨v, sv, rfl⟩ := defaultBgPhase_shape env t hbg
  refine ⟨?_, ?_, ?_⟩
  · have hloads : (runMain pages env).map (fun r => r.loads)
        = some ((overridePhase env pages [(DEFAULT_BG_PATH, v)]
            [DEFAULT_BG_PATH] []).2.1) := by
      cases hf : fontPhase env fontFiles <;> simp [runMain, hbg, hf]
    rw [hloads, overridePhase_loads]
    simp [expectedLoads]
  · simp only [expectedLoads, List.nodup_cons]
    refine ⟨fun hmem => ?_, distinctExistingAux_nodup env _ _⟩
    exact distinctExistingAux_not_mem env _ _ _ hmem (by simp)
  · cases hfs : (env.fs DEFAULT_BG_PATH).isSome with
    | true =>
      have hde : distinctExisting pages env
          = DEFAULT_BG_PATH
            :: distinctExistingAux env ([] ++ [DEFAULT_BG_PATH])
                (overridePaths pages) := by
        rw [distinctExisting, referencedPaths, distinctExistingAux,
          if_neg (by simp), hfs]
        simp
      simp [expectedLoads, hde, hfs]
    | false =>
      have hde : distinctExisting pages env
          = distinctExistingAux env [] (overridePaths pages) := by
        rw [distinctExisting, referencedPaths, distinctExistingAux,
          if_neg (by simp), hfs]
        simp
      have h2 : distinctExistingAux env [DEFAULT_BG_PATH]
            (overridePaths pages)
          = distinctExistingAux env [] (overridePaths pages) := by
        have h3 := distinctExistingAux_dead env DEFAULT_BG_PATH hfs
          (overridePaths pages) []
        simpa using h3
      rw [expectedLoads, hde]
      simp [h2, hfs, Nat.add_comm]

/-- C5 amended witness: in a run with the default background present, one
shared existing override and one missing override, the load list is
exactly the default plus the one existing override — duplicate-free, and
its length matches the distinct existing referenced paths. -/
theorem c5_assets_loaded_once_witness :
    defaultBgPhase envW = some bgTW
    ∧ ((runMain pagesW envW).map (fun r => r.loads)
          = some (expectedLoads pagesW envW)
      ∧ (expectedLoads pagesW envW).Nodup
      ∧ (expectedLoads pagesW envW).length
          = (distinctExisting pagesW envW).length
            + (if (envW.fs DEFAULT_BG_PATH).isSome then 0 else 1)) :=
  ⟨rfl, c5_assets_loaded_once pagesW envW bgTW rfl⟩

end OGGen
